import Mathlib

/-!
Verification development for the worker-logs service core: the gateway
handlers in src/index.ts, the RPC entrypoint in src/rpc.ts, and — where the
per-tenant durable-object implementation is not among the provided sources —
models of the storage actor taken from the specification (each such
definition is marked in its doc comment).
-/

namespace WorkerLogs

/-- Lexicographic comparison of character lists by code unit; this is the
order behind the JS comparisons used on ISO-8601 timestamp strings
(`a.localeCompare(b)` in the merge sort of src/index.ts line 165, and the
SQL string comparison behind prune). `lexLe as bs` means as ≤ bs. -/
def lexLe : List Char → List Char → Bool
  | [], _ => true
  | _ :: _, [] => false
  | a :: as, b :: bs => if a < b then true else if b < a then false else lexLe as bs

/-- Strict lexicographic comparison of character lists by code unit. -/
def lexLt : List Char → List Char → Bool
  | [], [] => false
  | [], _ :: _ => true
  | _ :: _, [] => false
  | a :: as, b :: bs => if a < b then true else if b < a then false else lexLt as bs

/-- Totality of the code-unit order; feeds the IsTotal instance the merge
sort requires. -/
def lexLe_total : ∀ as bs : List Char, lexLe as bs = true ∨ lexLe bs as = true := by
  intro as
  induction as with
  | nil => intro bs; left; rfl
  | cons a as ih =>
    intro bs
    cases bs with
    | nil => right; rfl
    | cons b bs =>
      by_cases hab : a < b
      · left; simp [lexLe, hab]
      · by_cases hba : b < a
        · right; simp [lexLe, hba]
        · rcases ih bs with h | h
          · left; simp [lexLe, hab, hba, h]
          · right; simp [lexLe, hab, hba, h]

/-- Transitivity of the code-unit order; feeds the IsTrans instance the
merge sort requires. -/
def lexLe_trans : ∀ as bs cs : List Char,
    lexLe as bs = true → lexLe bs cs = true → lexLe as cs = true := by
  intro as
  induction as with
  | nil => intro bs cs _ _; rfl
  | cons a as ih =>
    intro bs cs h1 h2
    cases bs with
    | nil => simp [lexLe] at h1
    | cons b bs =>
      cases cs with
      | nil => simp [lexLe] at h2
      | cons c cs =>
        simp only [lexLe] at h1 h2 ⊢
        by_cases hab : a < b
        · -- a < b; combined with b ≤ c we get a < c
          by_cases hbc : b < c
          · simp [lt_trans hab hbc]
          · by_cases hcb : c < b
            · simp [lexLe, hbc, hcb] at h2
            · have hbc' : b = c := le_antisymm (not_lt.mp hcb) (not_lt.mp hbc)
              simp [hbc' ▸ hab]
        · by_cases hba : b < a
          · simp [hab, hba] at h1
          · have hba' : a = b := le_antisymm (not_lt.mp hba) (not_lt.mp hab)
            subst hba'
            simp only [hab, if_neg, lt_irrefl, if_false] at h1
            by_cases hac : a < c
            · simp [hac]
            · by_cases hca : c < a
              · simp [hac, hca] at h2
              · simp only [hac, hca, if_false] at h2 ⊢
                exact ih bs cs h1 h2

/-- LogEntry row (the log record of the data model, as consumed by
src/index.ts and src/rpc.ts). The context payload is opaque to the store and
carried as an optional string; the durable object assigns id and timestamp
when absent, so entries are modelled here already in persisted form. -/
structure LogEntry where
  id : String
  timestamp : String
  level : String
  message : String
  context : Option String := none
  request_id : Option String := none
deriving DecidableEq, Repr

/-- HealthCheckResult row: status and latency are null on transport
failure. -/
structure HealthCheckResult where
  id : String
  url : String
  status : Option Int
  latency_ms : Option Int
  checked_at : String
deriving DecidableEq, Repr

/-- A row stored by a tenant actor: a log entry or a health-check result. -/
inductive Row
  | log (e : LogEntry)
  | health (h : HealthCheckResult)
deriving DecidableEq, Repr

/-- Error codes of the gateway responses (src/result.ts as used in
src/index.ts). -/
inductive ErrorCode
  | INTERNAL_ERROR
  | BAD_REQUEST
  | UNAUTHORIZED
  | NOT_FOUND
deriving DecidableEq, Repr

/-- A gateway response: the Ok/Err result shape of src/result.ts together
with the HTTP status the handler attaches to an error. -/
inductive ApiResult (α : Type)
  | ok (data : α)
  | err (code : ErrorCode) (status : Nat)
deriving DecidableEq, Repr

/-- Whether a response is a success. -/
def ApiResult.isOk : ApiResult α → Bool
  | .ok _ => true
  | .err _ _ => false

/-- Durable-object id. `idFromName` below is the pure name-based mapping of
src/rpc.ts lines 25-28 (`idFromName(appId)` followed by `get`): the id is
derived from the app name alone, deterministically and injectively, with no
registry lookup. -/
structure ActorId where
  name : String
deriving DecidableEq, Repr

/-- The pure app-name-to-actor mapping (src/rpc.ts `getAppDO`). -/
def idFromName (appId : String) : ActorId := ⟨appId⟩

/-- A write operation arriving at the gateway: the tenant it is issued for
and the row it appends. Log writes and health-check inserts route alike:
both go to the actor `idFromName app_id`. -/
structure WriteOp where
  app_id : String
  row : Row
deriving DecidableEq, Repr

/-- Global storage state: what each actor has stored, in arrival order. -/
def ActorStores := ActorId → List WriteOp

/-- One atomic write step: the operation is appended to the store of the
actor derived from its app id; every other actor is untouched. -/
def routeWrite (s : ActorStores) (op : WriteOp) : ActorStores :=
  fun i => if i = idFromName op.app_id then s i ++ [op] else s i

/-- Execute a sequence of writes (any interleaving of the tenants own write
streams: each write is a single serialized actor step, so an interleaving of
concurrent writes is exactly a list of operations). -/
def runWrites (ops : List WriteOp) (s : ActorStores) : ActorStores :=
  ops.foldl routeWrite s

/-- The empty global state: no actor holds any row. -/
def emptyStores : ActorStores := fun _ => []


/-- A JS number as it flows through the aggregate GET /logs handler: an
exact integer, or NaN as produced by parseInt on a non-numeric limit
parameter. -/
inductive JSNum
  | nan
  | int (z : Int)
deriving DecidableEq, Repr

/-- parseInt(s, 10): skip leading spaces, read an optional sign and then the
longest leading run of decimal digits; NaN when that run is empty. -/
def parseIntJS (s : String) : JSNum :=
  let cs := s.data.dropWhile (fun c => c = ' ')
  let signAndRest : Bool × List Char :=
    match cs with
    | '-' :: r => (true, r)
    | '+' :: r => (false, r)
    | r => (false, r)
  let ds := signAndRest.2.takeWhile (fun c => '0' ≤ c && c ≤ '9')
  if ds.isEmpty then .nan
  else
    let n : Nat := ds.foldl (fun acc c => acc * 10 + (c.toNat - '0'.toNat)) 0
    .int (if signAndRest.1 then -(n : Int) else (n : Int))

/-- Math.ceil(a / n) for an integer numerator and a positive integer
denominator (the tenant count), as computed on src/index.ts line 139; NaN
propagates. The exact rational a / n has ceiling -((-a) / n) in
floor-convention integer division. -/
def jsCeilDivNat : JSNum → Nat → JSNum
  | .nan, _ => .nan
  | .int a, n => .int (-((-a) / (n : Int)))

/-- Math.max: NaN when either argument is NaN. -/
def jsMax : JSNum → JSNum → JSNum
  | .nan, _ => .nan
  | _, .nan => .nan
  | .int a, .int b => .int (max a b)

/-- String(x) on a JS number. -/
def jsNumToString : JSNum → String
  | .nan => "NaN"
  | .int z => toString z

/-- arr.slice(0, e): a NaN end converts to 0 (empty result); a negative end
counts from the end of the array, clamped at 0. -/
def jsSlice (l : List α) : JSNum → List α
  | .nan => []
  | .int z => if 0 ≤ z then l.take z.toNat else l.take ((l.length : Int) + z).toNat

/-- The caller query parameters consumed by GET /logs (src/index.ts): each
filter carries its raw string value when present. The field `untilTs`
embeds the query parameter named until in the source, a reserved word
here. -/
structure QueryFilters where
  level : Option String := none
  since : Option String := none
  untilTs : Option String := none
  request_id : Option String := none
  limit : Option String := none
  offset : Option String := none
deriving DecidableEq, Repr

/-- AggregatedLogEntry: a log entry tagged with its source app id
(src/index.ts line 154). -/
structure AggregatedLogEntry extends LogEntry where
  app_id : String
deriving DecidableEq, Repr

/-- Tag one entry with its source app id (src/index.ts line 154). -/
def tagEntry (id : String) (e : LogEntry) : AggregatedLogEntry :=
  { toLogEntry := e, app_id := id }

/-- Descending-timestamp order used by the aggregate merge (src/index.ts
line 165: the comparator b.timestamp.localeCompare(a.timestamp)). -/
def tsGe (a b : AggregatedLogEntry) : Prop :=
  lexLe b.timestamp.data a.timestamp.data = true

instance : DecidableRel tsGe := fun _ _ =>
  inferInstanceAs (Decidable (_ = true))

instance : IsTotal AggregatedLogEntry tsGe :=
  ⟨fun a b => (lexLe_total b.timestamp.data a.timestamp.data).elim .inl .inr⟩

instance : IsTrans AggregatedLogEntry tsGe :=
  ⟨fun _ b _ h1 h2 => lexLe_trans _ b.timestamp.data _ h2 h1⟩

/-- The in-place sort of the merged results (src/index.ts line 165): a
stable sort by timestamp descending. -/
def sortByTimestampDesc (l : List AggregatedLogEntry) : List AggregatedLogEntry :=
  List.insertionSort tsGe l

/-- Outcome of one tenant DO fetch as the aggregate handler sees it: the
fetch can throw, or deliver a JSON body with an ok flag and a data field
that may (`some entries`) or may not (`none`) be an array of log entries
(src/index.ts lines 149-160). -/
inductive TenantResp
  | throws
  | resp (ok : Bool) (data : Option (List LogEntry))
deriving DecidableEq, Repr

/-- src/index.ts lines 148-161: one tenant contribution to the aggregate; a
throw, a non-ok result or non-array data all contribute the empty list,
otherwise each returned entry is tagged with the source app id. -/
def tenantContribution (id : String) (r : TenantResp) : List AggregatedLogEntry :=
  match r with
  | .throws => []
  | .resp ok data =>
    if ok then
      match data with
      | some entries => entries.map (tagEntry id)
      | none => []
    else []

/-- The registry read as the aggregate branch sees it: the KV namespace may
be unbound (src/index.ts line 121), the list operation may fail
(src/index.ts lines 125-128), or it yields the registered app ids. -/
inductive RegistryRead
  | noKV
  | listFailed
  | listed (appIds : List String)
deriving DecidableEq, Repr

/-- src/index.ts lines 136-138: the global limit is the parsed limit
parameter when present, 100 otherwise. -/
def globalLimitOf (params : QueryFilters) : JSNum :=
  match params.limit with
  | some s => parseIntJS s
  | none => .int 100

/-- src/index.ts line 139: per-app limit Math.max(10, Math.ceil(globalLimit
/ appIds.length)). -/
def perAppLimitOf (globalLimit : JSNum) (tenantCount : Nat) : JSNum :=
  jsMax (.int 10) (jsCeilDivNat globalLimit tenantCount)

/-- src/index.ts lines 142-145: the per-app query is a copy of the caller
parameters with limit overridden to the stringified per-app limit and
offset deleted. -/
def perAppQuery (params : QueryFilters) (perAppLimit : JSNum) : QueryFilters :=
  { params with limit := some (jsNumToString perAppLimit), offset := none }

/-- Result of the aggregate branch: the HTTP response together with the
trace of per-tenant DO queries it issued. -/
structure AggregateOutcome where
  response : ApiResult (List AggregatedLogEntry)
  calls : List (String × QueryFilters)
deriving DecidableEq, Repr

/-- The admin aggregate branch of GET /logs (src/index.ts lines 120-168):
fail when the KV namespace is unbound or the registry list fails; answer an
empty list for an empty registry; otherwise fan out one per-app query per
tenant (fetchTenant gives each tenant response), merge the contributions,
sort by timestamp descending and truncate with slice(0, globalLimit). -/
def aggregateLogs (reg : RegistryRead) (params : QueryFilters)
    (fetchTenant : String → QueryFilters → TenantResp) : AggregateOutcome :=
  match reg with
  | .noKV => ⟨.err .INTERNAL_ERROR 500, []⟩
  | .listFailed => ⟨.err .INTERNAL_ERROR 500, []⟩
  | .listed appIds =>
    if appIds.isEmpty then ⟨.ok [], []⟩
    else
      let globalLimit := globalLimitOf params
      let q := perAppQuery params (perAppLimitOf globalLimit appIds.length)
      let merged := (appIds.map (fun id => tenantContribution id (fetchTenant id q))).flatten
      ⟨.ok (jsSlice (sortByTimestampDesc merged) globalLimit),
        appIds.map (fun id => (id, q))⟩

/-- The per-level count aggregation of a batch (src/rpc.ts lines 68-76: the
reduce that finds an existing counter for the level and increments it, or
pushes a new one; the countByLevel helper the gateway batch branch imports
from src/utils.ts performs the same aggregation per the spec, its file not
being among the provided sources). One step of the fold. -/
def countStep : List (String × Nat) → String → List (String × Nat)
  | [], lvl => [(lvl, 1)]
  | c :: cs, lvl => if c.1 = lvl then (c.1, c.2 + 1) :: cs else c :: countStep cs lvl

/-- Per-level counts of a list of entries (src/rpc.ts lines 68-76). -/
def countByLevel (logs : List LogEntry) : List (String × Nat) :=
  logs.foldl (fun acc log => countStep acc log.level) []

/-- Total of a counts list. -/
def sumCounts (counts : List (String × Nat)) : Nat :=
  (counts.map Prod.snd).sum

/-- Total counted for one level: the sum over every element carrying that
level (a single element when the keys are distinct). -/
def countsFor (counts : List (String × Nat)) (l : String) : Nat :=
  ((counts.filter (fun c => c.1 == l)).map Prod.snd).sum

/-- Modelled from the spec: the storage-actor state these claims concern —
the per-tenant logs table and the per-day per-level stat counters (spec
sections 3 and 4.5). The durable-object implementation
(src/durable-objects/app-logs-do.ts) is not among the provided sources. -/
structure DOState where
  logs : List LogEntry
  stats : List ((String × String) × Nat)
deriving DecidableEq, Repr

/-- Increment the counter at a (date, level) key by n, adding the key when
absent. -/
def bumpStat : List ((String × String) × Nat) → (String × String) → Nat →
    List ((String × String) × Nat)
  | [], k, n => [(k, n)]
  | p :: ps, k, n => if p.1 = k then (p.1, p.2 + n) :: ps else p :: bumpStat ps k n

/-- Read the counter at a (date, level) key, 0 when absent. -/
def statOf : List ((String × String) × Nat) → (String × String) → Nat
  | [], _ => 0
  | p :: ps, k => if p.1 = k then p.2 else statOf ps k

/-- Modelled from the spec: writeLog persists the entry (spec section 4.1);
on storage-engine failure nothing is persisted and an error is returned. -/
def doWriteLog (st : DOState) (e : LogEntry) (storageOk : Bool) : DOState × Bool :=
  if storageOk then ({ st with logs := st.logs ++ [e] }, true) else (st, false)

/-- Modelled from the spec: writeLogBatch persists all entries or none
(spec section 4.1). -/
def doWriteLogBatch (st : DOState) (es : List LogEntry) (storageOk : Bool) :
    DOState × Bool :=
  if storageOk then ({ st with logs := st.logs ++ es }, true) else (st, false)

/-- Modelled from the spec: the DO stats endpoint increments the given
(date, level) counters in one atomic actor step (spec section 4.5); on
storage failure nothing is incremented and an error result is returned. -/
def doIncrementStats (st : DOState) (today : String) (counts : List (String × Nat))
    (storageOk : Bool) : DOState × Bool :=
  if storageOk then
    ({ st with stats := counts.foldl (fun s c => bumpStat s (today, c.1) c.2) st.stats },
      true)
  else (st, false)

/-- POST /logs, single-entry branch (src/index.ts lines 80-98): forward the
entry to the tenant DO; when the DO reports ok, issue one stats increment
carrying the entry level; return the DO write result to the caller. The
stats response is awaited but never examined by the handler. Returns the
final DO state, the ok flag the caller observes, and the stats calls
issued. -/
def postLogSingle (st : DOState) (today : String) (e : LogEntry)
    (writeStorageOk statsStorageOk : Bool) :
    DOState × Bool × List (List (String × Nat)) :=
  let w := doWriteLog st e writeStorageOk
  if w.2 then
    let s2 := doIncrementStats w.1 today [(e.level, 1)] statsStorageOk
    (s2.1, w.2, [[(e.level, 1)]])
  else (w.1, w.2, [])

/-- POST /logs, batch branch (src/index.ts lines 61-79): forward the batch
to the tenant DO; when the DO reports ok, issue one stats call carrying the
per-level counts pre-aggregated by countByLevel; return the DO write result
to the caller. The stats response is awaited but never examined. -/
def postLogBatch (st : DOState) (today : String) (es : List LogEntry)
    (writeStorageOk statsStorageOk : Bool) :
    DOState × Bool × List (List (String × Nat)) :=
  let w := doWriteLogBatch st es writeStorageOk
  if w.2 then
    let s2 := doIncrementStats w.1 today (countByLevel es) statsStorageOk
    (s2.1, w.2, [countByLevel es])
  else (w.1, w.2, [])

/-- A stats call issued by the RPC entrypoint (src/rpc.ts). -/
inductive StatsCall
  | incrementSingle (level : String)
  | incrementBatch (counts : List (String × Nat))
deriving DecidableEq, Repr

/-- The stats calls issued by LogsRPC.logBatch (src/rpc.ts lines 55-81):
when the DO write succeeded and the KV namespace is bound, exactly one
batch increment carrying the counts aggregated by the reduce of lines
68-76; otherwise none. -/
def logBatchStatsCalls (entries : List LogEntry) (writeOk kvBound : Bool) :
    List StatsCall :=
  if writeOk && kvBound then [.incrementBatch (countByLevel entries)] else []

/-- An operation that touches tenant state: a DO fetch addressed to the
actor of the named app, or a registry mutation for the named app. -/
inductive TenantOp
  | doFetch (appId : String)
  | registryDelete (appId : String)
deriving DecidableEq, Repr

/-- Modelled from the spec: the DO prune endpoint — pruneLogs deletes every
log row with timestamp strictly below the given bound and reports the
deleted count; an unparsable bound fails with ValidationError and deletes
nothing (spec section 4.1). The durable-object implementation is not among
the provided sources, so the timestamp-parsability test is the abstract
parameter tsParsable. -/
def doPrune (tsParsable : String → Bool) (st : DOState) (before : String) :
    DOState × ApiResult Nat :=
  if tsParsable before then
    let removed := st.logs.filter (fun e => lexLt e.timestamp.data before.data)
    ({ st with logs := st.logs.filter (fun e => !lexLt e.timestamp.data before.data) },
      .ok removed.length)
  else (st, .err .BAD_REQUEST 400)

/-- POST /apps/:app_id/prune (src/index.ts lines 203-224): the path app id
must equal the authenticated app id (API-key auth always sets one), 403
otherwise; a missing or empty before field is rejected with 400 before any
DO contact; otherwise the request is forwarded to the tenant DO prune
endpoint. Returns the response, the DO state after the call, and the trace
of tenant-state operations. -/
def pruneHandler (tsParsable : String → Bool) (pathAppId authAppId : String)
    (before : Option String) (st : DOState) :
    ApiResult Nat × DOState × List TenantOp :=
  if pathAppId ≠ authAppId then (.err .UNAUTHORIZED 403, st, [])
  else
    match before with
    | none => (.err .BAD_REQUEST 400, st, [])
    | some b =>
      if b = "" then (.err .BAD_REQUEST 400, st, [])
      else
        let r := doPrune tsParsable st b
        (r.2, r.1, [.doFetch pathAppId])

/-- TenantRegistration as stored in the registry (spec section 3; consumed
by src/index.ts lines 299-310). -/
structure TenantRegistration where
  app_id : String
  name : String
  api_key : String
  health_urls : List String
  created_at : String
deriving DecidableEq, Repr

/-- The GET /apps/:app_id response payload: every registration field except
api_key (src/index.ts lines 308-310). -/
structure SafeAppData where
  app_id : String
  name : String
  health_urls : List String
  created_at : String
deriving DecidableEq, Repr

/-- The destructuring on src/index.ts line 309: drop api_key, keep the
rest. -/
def stripApiKey (r : TenantRegistration) : SafeAppData :=
  { app_id := r.app_id, name := r.name, health_urls := r.health_urls,
    created_at := r.created_at }

/-- The registry-lookup tail of GET /apps/:app_id (src/index.ts lines
299-310): a failed registry read is passed through with status 500, a
missing registration is 404, a found one is returned with api_key
stripped. -/
def getAppDetails (lookup : ApiResult (Option TenantRegistration)) :
    ApiResult SafeAppData :=
  match lookup with
  | .err c _ => .err c 500
  | .ok none => .err .NOT_FOUND 404
  | .ok (some r) => .ok (stripApiKey r)

/-- GET /stats/:app_id (src/index.ts lines 184-200): when API-key auth set
an authenticated app id it must equal the path app id, 403 otherwise
before any DO contact; doResp is the DO stats response when contacted. -/
def statsHandler (pathAppId : String) (authAppId : Option String)
    (doResp : ApiResult (List ((String × String) × Nat))) :
    ApiResult (List ((String × String) × Nat)) × List TenantOp :=
  match authAppId with
  | some a =>
    if pathAppId ≠ a then (.err .UNAUTHORIZED 403, [])
    else (doResp, [.doFetch pathAppId])
  | none => (doResp, [.doFetch pathAppId])

/-- POST /apps/:app_id/health-urls (src/index.ts lines 227-249): the same
app-id guard; then a missing urls array is rejected with 400; otherwise the
urls are forwarded to the tenant DO. -/
def healthUrlsHandler (pathAppId : String) (authAppId : Option String)
    (urls : Option (List String)) (doResp : ApiResult Unit) :
    ApiResult Unit × List TenantOp :=
  match authAppId with
  | some a =>
    if pathAppId ≠ a then (.err .UNAUTHORIZED 403, [])
    else
      match urls with
      | none => (.err .BAD_REQUEST 400, [])
      | some _ => (doResp, [.doFetch pathAppId])
  | none =>
    match urls with
    | none => (.err .BAD_REQUEST 400, [])
    | some _ => (doResp, [.doFetch pathAppId])

/-- GET /apps/:app_id (src/index.ts lines 286-311): the same app-id guard,
then the KV-binding check, then the registry lookup with api_key
stripping. The route reads the registry only; it issues no tenant-state
operation. -/
def appDetailsHandler (pathAppId : String) (authAppId : Option String)
    (kvBound : Bool) (lookup : ApiResult (Option TenantRegistration)) :
    ApiResult SafeAppData × List TenantOp :=
  match authAppId with
  | some a =>
    if pathAppId ≠ a then (.err .UNAUTHORIZED 403, [])
    else if kvBound then (getAppDetails lookup, [])
    else (.err .INTERNAL_ERROR 500, [])
  | none =>
    if kvBound then (getAppDetails lookup, [])
    else (.err .INTERNAL_ERROR 500, [])

/-- DELETE /apps/:app_id (src/index.ts lines 314-333): the same app-id
guard, the KV-binding check, then the registry delete for the path app
id. -/
def deleteAppHandler (pathAppId : String) (authAppId : Option String)
    (kvBound : Bool) (delResult : ApiResult Bool) :
    ApiResult Bool × List TenantOp :=
  match authAppId with
  | some a =>
    if pathAppId ≠ a then (.err .UNAUTHORIZED 403, [])
    else if kvBound then (delResult, [.registryDelete pathAppId])
    else (.err .INTERNAL_ERROR 500, [])
  | none =>
    if kvBound then (delResult, [.registryDelete pathAppId])
    else (.err .INTERNAL_ERROR 500, [])

/-- One example log entry; entry i carries day i of January 2026 in its
timestamp, so later indexes are strictly newer in code-unit order. -/
def exampleEntry (i : Nat) : LogEntry :=
  { id := toString i,
    timestamp := "2026-01-" ++ (if i < 10 then "0" else "") ++ toString i ++ "T00:00:00Z",
    level := "INFO", message := "m" }

/-- The ten entries of example tenant A: days 1 through 10. -/
def exampleEntriesA : List LogEntry := (List.range 10).map (fun i => exampleEntry (i + 1))

/-- The five entries of example tenant B: days 11 through 15. -/
def exampleEntriesB : List LogEntry := (List.range 5).map (fun i => exampleEntry (i + 11))

/-- The fetch behaviour of the two-tenant example: A answers its ten
entries, B its five, any other tenant throws. -/
def exampleFetch : String → QueryFilters → TenantResp := fun id _ =>
  if id = "A" then .resp true (some exampleEntriesA)
  else if id = "B" then .resp true (some exampleEntriesB)
  else .throws

/-- The 12 newest of the 15 merged example entries, newest first: all five of
B (days 15 down to 11), then the seven newest of A (days 10 down to 4). -/
def exampleExpected : List AggregatedLogEntry :=
  (exampleEntriesB.reverse.map (tagEntry "B"))
    ++ ((exampleEntriesA.drop 3).reverse.map (tagEntry "A"))

/-- The merged pre-sort list the aggregate branch builds: the concatenation
of every tenant contribution to the per-app query (src/index.ts lines
147-164). -/
def mergedOf (appIds : List String) (params : QueryFilters)
    (fetch : String → QueryFilters → TenantResp) : List AggregatedLogEntry :=
  (appIds.map (fun id =>
    tenantContribution id
      (fetch id (perAppQuery params (perAppLimitOf (globalLimitOf params) appIds.length))))).flatten

/-- A three-entry example batch: two INFO entries and one ERROR entry. -/
def exampleBatch : List LogEntry :=
  [exampleEntry 1, exampleEntry 2,
    { id := "9", timestamp := "2026-01-09T00:00:00Z", level := "ERROR", message := "boom" }]

theorem runWrites_store (ops : List WriteOp) :
    ∀ s : ActorStores, ∀ i : ActorId,
      runWrites ops s i = s i ++ ops.filter (fun op => idFromName op.app_id == i) := by
  induction ops with
  | nil => intro s i; simp [runWrites]
  | cons op ops ih =>
    intro s i
    simp only [runWrites, List.foldl_cons, List.filter_cons]
    have h := ih (routeWrite s op) i
    simp only [runWrites] at h
    rw [h]
    by_cases hop : idFromName op.app_id = i
    · simp [routeWrite, hop, beq_iff_eq]
    · have : (idFromName op.app_id == i) = false := beq_eq_false_iff_ne.mpr hop
      simp [routeWrite, this]
      intro he
      exact absurd he.symm hop

theorem countsFor_countStep (lvl l : String) :
    ∀ acc, countsFor (countStep acc lvl) l
      = countsFor acc l + if lvl = l then 1 else 0 := by
  intro acc
  induction acc with
  | nil =>
    by_cases h : lvl = l <;> simp [countStep, countsFor, h]
  | cons c cs ih =>
    by_cases hc : c.1 = lvl
    · subst hc
      by_cases hl : c.1 = l
      · simp [countStep, countsFor, hl, Nat.add_assoc, Nat.add_comm 1]
      · simp [countStep, countsFor, hl]
    · have hstep : countStep (c :: cs) lvl = c :: countStep cs lvl := by
        simp [countStep, hc]
      by_cases hl : c.1 = l
      · simp [hstep, countsFor, hl]
        have := ih
        simp [countsFor] at this
        omega
      · simp [hstep, countsFor, hl]
        have := ih
        simp [countsFor] at this
        omega

theorem sumCounts_countStep (lvl : String) :
    ∀ acc, sumCounts (countStep acc lvl) = sumCounts acc + 1 := by
  intro acc
  induction acc with
  | nil => simp [countStep, sumCounts]
  | cons c cs ih =>
    by_cases hc : c.1 = lvl
    · simp [countStep, hc, sumCounts]
      omega
    · simp [countStep, hc, sumCounts] at ih ⊢
      omega

theorem mem_keys_countStep (lvl l : String) :
    ∀ acc, l ∈ (countStep acc lvl).map Prod.fst
      ↔ l ∈ acc.map Prod.fst ∨ l = lvl := by
  intro acc
  induction acc with
  | nil => simp [countStep, eq_comm]
  | cons c cs ih =>
    by_cases hc : c.1 = lvl
    · subst hc
      simp [countStep]
      tauto
    · simp [countStep, hc, ih]
      tauto

theorem nodup_keys_countStep (lvl : String) :
    ∀ acc, (acc.map Prod.fst).Nodup → ((countStep acc lvl).map Prod.fst).Nodup := by
  intro acc
  induction acc with
  | nil => intro _; simp [countStep]
  | cons c cs ih =>
    intro hnd
    simp only [List.map_cons, List.nodup_cons] at hnd
    by_cases hc : c.1 = lvl
    · subst hc
      simpa [countStep, List.nodup_cons] using hnd
    · have hstep : countStep (c :: cs) lvl = c :: countStep cs lvl := by
        simp [countStep, hc]
      rw [hstep]
      simp only [List.map_cons, List.nodup_cons]
      refine ⟨?_, ih hnd.2⟩
      rw [mem_keys_countStep]
      rintro (h | h)
      · exact hnd.1 h
      · exact hc h

theorem countsFor_foldl_countStep (l : String) :
    ∀ (logs : List LogEntry) (acc : List (String × Nat)),
      countsFor (logs.foldl (fun acc log => countStep acc log.level) acc) l
        = countsFor acc l + (logs.filter (fun e => e.level == l)).length := by
  intro logs
  induction logs with
  | nil => intro acc; simp
  | cons e logs ih =>
    intro acc
    simp only [List.foldl_cons, List.filter_cons]
    rw [ih, countsFor_countStep]
    by_cases h : e.level = l
    · simp [h]
      omega
    · have : (e.level == l) = false := beq_eq_false_iff_ne.mpr h
      simp [h, this]

theorem sumCounts_foldl_countStep :
    ∀ (logs : List LogEntry) (acc : List (String × Nat)),
      sumCounts (logs.foldl (fun acc log => countStep acc log.level) acc)
        = sumCounts acc + logs.length := by
  intro logs
  induction logs with
  | nil => intro acc; simp
  | cons e logs ih =>
    intro acc
    simp only [List.foldl_cons, List.length_cons]
    rw [ih, sumCounts_countStep]
    omega

theorem mem_keys_foldl_countStep (l : String) :
    ∀ (logs : List LogEntry) (acc : List (String × Nat)),
      l ∈ ((logs.foldl (fun acc log => countStep acc log.level) acc).map Prod.fst)
        ↔ l ∈ acc.map Prod.fst ∨ l ∈ logs.map LogEntry.level := by
  intro logs
  induction logs with
  | nil => intro acc; simp
  | cons e logs ih =>
    intro acc
    simp only [List.foldl_cons, List.map_cons, List.mem_cons]
    rw [ih, mem_keys_countStep]
    tauto

theorem nodup_keys_foldl_countStep :
    ∀ (logs : List LogEntry) (acc : List (String × Nat)),
      (acc.map Prod.fst).Nodup →
      ((logs.foldl (fun acc log => countStep acc log.level) acc).map Prod.fst).Nodup := by
  intro logs
  induction logs with
  | nil => intro acc h; simpa using h
  | cons e logs ih =>
    intro acc h
    simp only [List.foldl_cons]
    exact ih _ (nodup_keys_countStep e.level acc h)

theorem countsFor_of_notMem_keys (l : String) :
    ∀ s : List (String × Nat), l ∉ s.map Prod.fst → countsFor s l = 0 := by
  intro s
  induction s with
  | nil => intro _; rfl
  | cons c cs ih =>
    intro h
    simp only [List.map_cons, List.mem_cons] at h
    push_neg at h
    have : (c.1 == l) = false := beq_eq_false_iff_ne.mpr (fun he => h.1 he.symm)
    simp [countsFor, this]
    simpa [countsFor] using ih h.2

theorem countsFor_of_mem_of_nodup :
    ∀ (s : List (String × Nat)) (p : String × Nat),
      (s.map Prod.fst).Nodup → p ∈ s → countsFor s p.1 = p.2 := by
  intro s
  induction s with
  | nil => intro p _ hp; simp at hp
  | cons c cs ih =>
    intro p hnd hp
    simp only [List.map_cons, List.nodup_cons] at hnd
    rcases List.mem_cons.mp hp with h | h
    · subst h
      simp [countsFor]
      exact countsFor_of_notMem_keys p.1 cs hnd.1
    · have hkey : c.1 ≠ p.1 := by
        intro he
        exact hnd.1 (he ▸ List.mem_map_of_mem Prod.fst h)
      have : (c.1 == p.1) = false := beq_eq_false_iff_ne.mpr hkey
      simp only [countsFor, List.filter_cons, this]
      exact ih p hnd.2 h

theorem statOf_bumpStat (k : String × String) (n : Nat) :
    ∀ (s : List ((String × String) × Nat)) (k2 : String × String),
      statOf (bumpStat s k n) k2 = statOf s k2 + if k2 = k then n else 0 := by
  intro s
  induction s with
  | nil =>
    intro k2
    by_cases h : k2 = k
    · simp [bumpStat, statOf, h]
    · have : k ≠ k2 := fun he => h he.symm
      simp [bumpStat, statOf, this, h]
  | cons p ps ih =>
    intro k2
    by_cases hp : p.1 = k
    · subst hp
      by_cases h2 : p.1 = k2
      · subst h2
        simp [bumpStat, statOf]
      · have : k2 ≠ p.1 := fun he => h2 he.symm
        simp [bumpStat, statOf, h2, this]
    · by_cases h2 : p.1 = k2
      · subst h2
        simp [bumpStat, statOf, hp]
      · simp [bumpStat, statOf, hp, h2, ih]

theorem statOf_foldl_bumpStat (today l : String) :
    ∀ (counts : List (String × Nat)) (stats : List ((String × String) × Nat)),
      statOf (counts.foldl (fun s c => bumpStat s (today, c.1) c.2) stats) (today, l)
        = statOf stats (today, l) + countsFor counts l := by
  intro counts
  induction counts with
  | nil => intro stats; simp [countsFor]
  | cons c cs ih =>
    intro stats
    simp only [List.foldl_cons]
    rw [ih, statOf_bumpStat]
    by_cases h : c.1 = l
    · subst h
      simp [countsFor]
      omega
    · have hne : (today, l) ≠ (today, c.1) := by
        intro he
        exact h (congrArg Prod.snd he).symm
      have hb : (c.1 == l) = false := beq_eq_false_iff_ne.mpr h
      simp [countsFor, hne, hb]

theorem ceil_div_as_neg_ediv (L : Int) (n : Nat) :
    (-((-L) / (n : Int))) = ⌈(L : ℚ) / (n : ℚ)⌉ := by
  have h1 : ⌈(L : ℚ) / (n : ℚ)⌉ = -⌊-((L : ℚ) / (n : ℚ))⌋ := by
    rw [Int.floor_neg]; ring
  have h2 : -((L : ℚ) / (n : ℚ)) = (((-L : ℤ) : ℚ) / ((n : ℕ) : ℚ)) := by
    push_cast; ring
  rw [h1, h2, Rat.floor_intCast_div_natCast]

/-- C1: Tenant isolation. Every write is routed through the pure name-based
mapping idFromName (src/rpc.ts getAppDO), and each write is one serialized
actor step, so an arbitrary interleaving of concurrent writes is an
arbitrary operation list. After any such interleaving, the actor of app a
holds exactly the operations issued for a — all LogEntry and
HealthCheckResult rows of a tenant live in that one actor — and for
distinct tenants a and b the actor of b never holds a row belonging to
a. -/
theorem tenant_isolation (ops : List WriteOp) (a b : String) (hab : a ≠ b) :
    runWrites ops emptyStores (idFromName a) = ops.filter (fun op => op.app_id == a) ∧
    ∀ op ∈ runWrites ops emptyStores (idFromName b), op.app_id ≠ a := by
  have key : ∀ c : String,
      runWrites ops emptyStores (idFromName c)
        = ops.filter (fun op => op.app_id == c) := by
    intro c
    rw [runWrites_store]
    have hcong : ∀ op ∈ ops,
        (idFromName op.app_id == idFromName c) = (op.app_id == c) := by
      intro op _
      by_cases h : op.app_id = c
      · simp [idFromName, h]
      · simp [idFromName, h]
    simp only [emptyStores, List.nil_append]
    exact List.filter_congr hcong
  refine ⟨key a, ?_⟩
  intro op hop
  rw [key b] at hop
  have : op.app_id = b := by
    have := (List.mem_filter.mp hop).2
    simpa using this
  intro he
  exact hab (he.symm.trans this)

/-- Witness for C1: a concrete interleaving of writes for apps A and B,
with the hypothesis A ≠ B discharged. -/
theorem tenant_isolation_witness :
    ("A" : String) ≠ "B" ∧
    runWrites
        [⟨"A", .log (exampleEntry 1)⟩, ⟨"B", .log (exampleEntry 2)⟩,
          ⟨"A", .log (exampleEntry 3)⟩] emptyStores (idFromName "A")
      = [⟨"A", .log (exampleEntry 1)⟩, ⟨"A", .log (exampleEntry 3)⟩] :=
  ⟨by decide, by
    rw [(tenant_isolation
      [⟨"A", .log (exampleEntry 1)⟩, ⟨"B", .log (exampleEntry 2)⟩,
        ⟨"A", .log (exampleEntry 3)⟩] "A" "B" (by decide)).1]
    decide⟩

/-- C8: The api_key secret is never returned. The GET /apps/:app_id
response keeps every registration field except api_key, and two
registrations differing only in api_key produce identical responses. -/
theorem api_key_never_returned (r : TenantRegistration) (k1 k2 : String) :
    getAppDetails (.ok (some { r with api_key := k1 }))
      = getAppDetails (.ok (some { r with api_key := k2 })) ∧
    (stripApiKey r).app_id = r.app_id ∧
    (stripApiKey r).name = r.name ∧
    (stripApiKey r).health_urls = r.health_urls ∧
    (stripApiKey r).created_at = r.created_at ∧
    getAppDetails (.ok (some r)) = .ok (stripApiKey r) :=
  ⟨rfl, rfl, rfl, rfl, rfl, rfl⟩

/-- C9: Cross-tenant access with a tenant API key is rejected at the
gateway. For each of the five guarded routes (stats, prune, health-urls,
app details, delete), an authenticated app id differing from the path app
id yields a 403 UNAUTHORIZED response with an empty tenant-operation trace:
the target actor is never contacted and no tenant state changes (the prune
handler also returns its DO state unchanged). -/
theorem cross_tenant_access_rejected (path a : String) (hne : a ≠ path)
    (doStats : ApiResult (List ((String × String) × Nat)))
    (urls : Option (List String)) (doHealth : ApiResult Unit) (kvBound : Bool)
    (lookup : ApiResult (Option TenantRegistration)) (delResult : ApiResult Bool)
    (tsP : String → Bool) (before : Option String) (st : DOState) :
    statsHandler path (some a) doStats = (.err .UNAUTHORIZED 403, []) ∧
    pruneHandler tsP path a before st = (.err .UNAUTHORIZED 403, st, []) ∧
    healthUrlsHandler path (some a) urls doHealth = (.err .UNAUTHORIZED 403, []) ∧
    appDetailsHandler path (some a) kvBound lookup = (.err .UNAUTHORIZED 403, []) ∧
    deleteAppHandler path (some a) kvBound delResult = (.err .UNAUTHORIZED 403, []) := by
  have h : path ≠ a := fun he => hne he.symm
  refine ⟨?_, ?_, ?_, ?_, ?_⟩ <;>
    simp [statsHandler, pruneHandler, healthUrlsHandler, appDetailsHandler,
      deleteAppHandler, h]

/-- Witness for C9 at concrete mismatching app ids B (authenticated) and A
(path). -/
theorem cross_tenant_access_rejected_witness :
    ("B" : String) ≠ "A" ∧
    statsHandler "A" (some "B") (.ok []) = (.err .UNAUTHORIZED 403, []) ∧
    pruneHandler (fun _ => true) "A" "B" (some "2026-01-01") ⟨exampleEntriesA, []⟩
      = (.err .UNAUTHORIZED 403, ⟨exampleEntriesA, []⟩, []) :=
  ⟨by decide,
    (cross_tenant_access_rejected "A" "B" (by decide) (.ok []) none (.ok ())
      true (.ok none) (.ok true) (fun _ => true) (some "2026-01-01")
      ⟨exampleEntriesA, []⟩).1,
    (cross_tenant_access_rejected "A" "B" (by decide) (.ok []) none (.ok ())
      true (.ok none) (.ok true) (fun _ => true) (some "2026-01-01")
      ⟨exampleEntriesA, []⟩).2.1⟩

/-- C2: Per-tenant query construction of the aggregate branch. With n ≥ 1
registered tenants and a global limit that parsed to the integer L (the
default being 100 when the caller gives no limit, per globalLimitOf), the
handler issues exactly one per-tenant call per app id, each carrying limit
overridden to max(10, ceil(L / n)), offset dropped, and the level, since,
until and request_id filters passed through unchanged. -/
theorem aggregate_per_tenant_calls (params : QueryFilters) (appIds : List String)
    (fetch : String → QueryFilters → TenantResp) (L : Int)
    (hne : appIds ≠ []) (hL : globalLimitOf params = .int L) :
    (aggregateLogs (.listed appIds) params fetch).calls
      = appIds.map
          (fun id => (id, perAppQuery params (perAppLimitOf (.int L) appIds.length))) ∧
    (perAppQuery params (perAppLimitOf (.int L) appIds.length)).limit
      = some (toString (max 10 ⌈(L : ℚ) / (appIds.length : ℚ)⌉)) ∧
    (perAppQuery params (perAppLimitOf (.int L) appIds.length)).offset = none ∧
    (perAppQuery params (perAppLimitOf (.int L) appIds.length)).level = params.level ∧
    (perAppQuery params (perAppLimitOf (.int L) appIds.length)).since = params.since ∧
    (perAppQuery params (perAppLimitOf (.int L) appIds.length)).untilTs = params.untilTs ∧
    (perAppQuery params (perAppLimitOf (.int L) appIds.length)).request_id
      = params.request_id ∧
    (∀ p : QueryFilters, p.limit = none → globalLimitOf p = .int 100) := by
  have hlen : appIds.isEmpty = false := by
    cases appIds with
    | nil => exact absurd rfl hne
    | cons x xs => rfl
  refine ⟨?_, ?_, rfl, rfl, rfl, rfl, rfl, ?_⟩
  · simp [aggregateLogs, hlen, hL]
  · simp only [perAppQuery, perAppLimitOf, jsCeilDivNat, jsMax, jsNumToString]
    rw [← ceil_div_as_neg_ediv]
  · intro p hp
    simp [globalLimitOf, hp]

/-- Witness for C2: two tenants, caller limit 12: per-app limit
max(10, ceil(12/2)) = 10, offset dropped. -/
theorem aggregate_per_tenant_calls_witness :
    (["A", "B"] : List String) ≠ [] ∧
    globalLimitOf { limit := some "12" } = JSNum.int 12 ∧
    (perAppQuery { limit := some "12" } (perAppLimitOf (.int 12) 2)).offset = none :=
  ⟨by decide, by decide,
    (aggregate_per_tenant_calls { limit := some "12" } ["A", "B"] exampleFetch 12
      (by decide) (by decide)).2.2.1⟩

/-- C10: A present but non-numeric limit parameter makes the aggregate
branch succeed with an empty list regardless of the tenants and their
entries: parseInt yields NaN, Math.max(10, Math.ceil(NaN / n)) stays NaN,
and slice(0, NaN) truncates everything away. -/
theorem aggregate_nan_limit (appIds : List String) (params : QueryFilters)
    (s : String) (fetch : String → QueryFilters → TenantResp)
    (hs : params.limit = some s) (hnan : parseIntJS s = .nan) :
    (aggregateLogs (.listed appIds) params fetch).response = .ok [] ∧
    (∀ n, perAppLimitOf .nan n = .nan) ∧
    (∀ l : List AggregatedLogEntry, jsSlice l .nan = []) := by
  have hgl : globalLimitOf params = .nan := by simp [globalLimitOf, hs, hnan]
  refine ⟨?_, fun n => rfl, fun l => rfl⟩
  by_cases he : appIds.isEmpty
  · simp [aggregateLogs, he]
  · simp only [Bool.not_eq_true] at he
    simp [aggregateLogs, he, hgl, jsSlice]

/-- Witness for C10: limit=abc with one tenant holding ten entries still
answers the empty list. -/
theorem aggregate_nan_limit_witness :
    ({ limit := some "abc" } : QueryFilters).limit = some "abc" ∧
    parseIntJS "abc" = JSNum.nan ∧
    (aggregateLogs (.listed ["A"]) { limit := some "abc" } exampleFetch).response
      = .ok [] :=
  ⟨rfl, by decide,
    (aggregate_nan_limit ["A"] { limit := some "abc" } "abc" exampleFetch rfl
      (by decide)).1⟩

/-- C4: Partial-failure containment of the aggregate branch. The request
succeeds exactly when the registry could be read (KV bound and list ok);
a tenant whose fetch throws, answers a non-ok result, or answers non-array
data contributes the empty list, and the request still succeeds with the
remaining contributions. -/
theorem aggregate_failure_containment (reg : RegistryRead) (params : QueryFilters)
    (fetch : String → QueryFilters → TenantResp) :
    ((aggregateLogs reg params fetch).response.isOk = true
      ↔ ∃ ids, reg = .listed ids) ∧
    (∀ id, tenantContribution id .throws = []) ∧
    (∀ id d, tenantContribution id (.resp false d) = []) ∧
    (∀ id, tenantContribution id (.resp true none) = []) := by
  refine ⟨?_, fun id => rfl, fun id d => rfl, fun id => rfl⟩
  cases reg with
  | noKV => simp [aggregateLogs, ApiResult.isOk]
  | listFailed => simp [aggregateLogs, ApiResult.isOk]
  | listed ids =>
    constructor
    · intro _
      exact ⟨ids, rfl⟩
    · intro _
      by_cases he : ids.isEmpty
      · simp [aggregateLogs, he, ApiResult.isOk]
      · simp only [Bool.not_eq_true] at he
        simp [aggregateLogs, he, ApiResult.isOk]

/-- Witness for C4: with one registered tenant whose fetch throws, the
aggregate request still succeeds and that tenant contributed nothing. -/
theorem aggregate_failure_containment_witness :
    (aggregateLogs (.listed ["A"]) {} (fun _ _ => .throws)).response.isOk = true ∧
    tenantContribution "A" .throws = [] :=
  ⟨(aggregate_failure_containment (.listed ["A"]) {} (fun _ _ => .throws)).1.mpr
      ⟨["A"], rfl⟩,
    (aggregate_failure_containment (.listed ["A"]) {} (fun _ _ => .throws)).2.1 "A"⟩

/-- C6: Client-side pre-aggregation of batch counts (the reduce of
src/rpc.ts lines 68-76). For a batch of K entries the counts list carries
exactly one element per distinct level occurring in the batch (its keys are
distinct and are exactly the levels of the batch), each count equals the
number of entries of that level, the counts sum to K, and — when the write
succeeded and the KV namespace is bound — exactly one batch increment call
is issued carrying those counts, not one call per entry. -/
theorem batch_count_preaggregation (logs : List LogEntry) :
    ((countByLevel logs).map Prod.fst).Nodup ∧
    (∀ l, l ∈ (countByLevel logs).map Prod.fst ↔ l ∈ logs.map LogEntry.level) ∧
    (∀ p ∈ countByLevel logs, p.2 = (logs.filter (fun e => e.level == p.1)).length) ∧
    sumCounts (countByLevel logs) = logs.length ∧
    logBatchStatsCalls logs true true = [.incrementBatch (countByLevel logs)] := by
  have hnd : ((countByLevel logs).map Prod.fst).Nodup :=
    nodup_keys_foldl_countStep logs [] (by simp)
  refine ⟨hnd, ?_, ?_, ?_, rfl⟩
  · intro l
    have h := mem_keys_foldl_countStep l logs []
    simpa [countByLevel] using h
  · intro p hp
    have h1 := countsFor_of_mem_of_nodup (countByLevel logs) p hnd hp
    have h2 := countsFor_foldl_countStep p.1 logs []
    simp only [countByLevel] at h1
    rw [h1] at h2
    simpa [countsFor] using h2
  · have h := sumCounts_foldl_countStep logs []
    simpa [countByLevel, sumCounts] using h

/-- Witness for C6 at the three-entry example batch (two INFO, one ERROR):
the INFO count is 2, the number of INFO entries. -/
theorem batch_count_preaggregation_witness :
    (("INFO", 2) : String × Nat) ∈ countByLevel exampleBatch ∧
    (("INFO", 2) : String × Nat).2
      = (exampleBatch.filter (fun e => e.level == ("INFO", 2).1)).length :=
  ⟨by decide,
    (batch_count_preaggregation exampleBatch).2.2.1 ("INFO", 2) (by decide)⟩

/-- C5 counterexample refuting the claim as stated: the POST /logs handler
never examines the stats response, so when the DO write succeeds but the
stats increment fails, the caller still observes success while the matching
counter increment is not durable — the write and its counter updates are
not coupled into one all-or-nothing step. Concretely: one accepted INFO
write, stats storage failing, yields ok=true to the caller, one INFO row
persisted that day, and a (date, INFO) counter still at zero. -/
theorem write_stats_coupling_counterexample :
    (postLogSingle ⟨[], []⟩ "2026-02-03"
        { id := "1", timestamp := "2026-02-03T04:05:06Z", level := "INFO",
          message := "m" } true false).2.1 = true ∧
    (postLogSingle ⟨[], []⟩ "2026-02-03"
        { id := "1", timestamp := "2026-02-03T04:05:06Z", level := "INFO",
          message := "m" } true false).1.logs.length = 1 ∧
    statOf (postLogSingle ⟨[], []⟩ "2026-02-03"
        { id := "1", timestamp := "2026-02-03T04:05:06Z", level := "INFO",
          message := "m" } true false).1.stats ("2026-02-03", "INFO") = 0 := by
  refine ⟨rfl, rfl, rfl⟩

/-- C5 (amended): For every accepted write the handler issues exactly one
stats call per write — carrying one increment per distinct level present
(the single level for a single write, the pre-aggregated counts for a
batch) — after the DO write reported ok and before the acknowledgment is
returned; a failed write issues no increment and leaves the actor
unchanged; and when the stats increment itself also succeeds, each
(date, level) counter grows by exactly the number of rows of that level
just written, so counters equal row counts while increments succeed. The
response to the caller reflects the write outcome only: a failed increment
is not detected (see the counterexample). -/
theorem write_stats_flow (st : DOState) (today : String) (e : LogEntry)
    (es : List LogEntry) (wOk sOk : Bool) :
    (postLogSingle st today e wOk sOk).2.1 = wOk ∧
    (postLogSingle st today e wOk sOk).2.2
      = (if wOk then [[(e.level, 1)]] else []) ∧
    (wOk = false → (postLogSingle st today e wOk sOk).1 = st) ∧
    (wOk = true → (postLogSingle st today e wOk sOk).1.logs = st.logs ++ [e]) ∧
    (wOk = true → sOk = true → ∀ l,
      statOf (postLogSingle st today e wOk sOk).1.stats (today, l)
        = statOf st.stats (today, l) + ([e].filter (fun x => x.level == l)).length) ∧
    (postLogBatch st today es wOk sOk).2.1 = wOk ∧
    (postLogBatch st today es wOk sOk).2.2
      = (if wOk then [countByLevel es] else []) ∧
    (wOk = false → (postLogBatch st today es wOk sOk).1 = st) ∧
    (wOk = true → (postLogBatch st today es wOk sOk).1.logs = st.logs ++ es) ∧
    (wOk = true → sOk = true → ∀ l,
      statOf (postLogBatch st today es wOk sOk).1.stats (today, l)
        = statOf st.stats (today, l) + (es.filter (fun x => x.level == l)).length) := by
  cases wOk with
  | false =>
    refine ⟨rfl, rfl, fun _ => rfl, fun h => by simp at h, fun h => by simp at h,
      rfl, rfl, fun _ => rfl, fun h => by simp at h, fun h => by simp at h⟩
  | true =>
    cases sOk with
    | false =>
      refine ⟨rfl, rfl, fun h => by simp at h, fun _ => rfl,
        fun _ h => by simp at h, rfl, rfl, fun h => by simp at h, fun _ => rfl,
        fun _ h => by simp at h⟩
    | true =>
      refine ⟨rfl, rfl, fun h => by simp at h, fun _ => rfl, fun _ _ l => ?_,
        rfl, rfl, fun h => by simp at h, fun _ => rfl, fun _ _ l => ?_⟩
      · have h := statOf_foldl_bumpStat today l [(e.level, 1)] st.stats
        simp only [postLogSingle, doWriteLog, doIncrementStats, if_true] at h ⊢
        rw [h]
        by_cases hl : e.level = l
        · simp [countsFor, hl]
        · have hb : (e.level == l) = false := beq_eq_false_iff_ne.mpr hl
          simp [countsFor, hb]
      · have h := statOf_foldl_bumpStat today l (countByLevel es) st.stats
        have h2 := countsFor_foldl_countStep l es []
        simp only [postLogBatch, doWriteLogBatch, doIncrementStats, if_true] at h ⊢
        rw [h]
        simp only [countByLevel] at h2 ⊢
        rw [h2]
        simp [countsFor]

/-- Witness for C5 (amended) at the example batch, all storage succeeding:
the INFO counter grows by the two INFO entries written. -/
theorem write_stats_flow_witness :
    (true : Bool) = true ∧
    statOf (postLogBatch ⟨[], []⟩ "2026-01-01" exampleBatch true true).1.stats
        ("2026-01-01", "INFO")
      = statOf ([] : List ((String × String) × Nat)) ("2026-01-01", "INFO")
          + (exampleBatch.filter (fun x => x.level == "INFO")).length :=
  ⟨rfl,
    (write_stats_flow ⟨[], []⟩ "2026-01-01" (exampleEntry 1) exampleBatch true
      true).2.2.2.2.2.2.2.2.2 rfl rfl "INFO"⟩

/-- C7: pruneLogs requires the before timestamp. With matching app ids, a
request with before absent or empty is rejected with 400 and no DO contact
(so nothing is deleted); a present but unparsable before reaches the DO and
fails there with ValidationError, deleting nothing; a parsable before
deletes exactly the entries with timestamp strictly below it and reports
their number. The DO side is modelled from the spec (see doPrune); the
parsability test is the abstract parameter tsP. -/
theorem prune_requires_before (tsP : String → Bool) (appId : String) (st : DOState) :
    pruneHandler tsP appId appId none st = (.err .BAD_REQUEST 400, st, []) ∧
    pruneHandler tsP appId appId (some "") st = (.err .BAD_REQUEST 400, st, []) ∧
    (∀ b, b ≠ "" → tsP b = false →
      pruneHandler tsP appId appId (some b) st
        = (.err .BAD_REQUEST 400, st, [.doFetch appId])) ∧
    (∀ b, b ≠ "" → tsP b = true →
      (pruneHandler tsP appId appId (some b) st).2.1.logs
          = st.logs.filter (fun e => !lexLt e.timestamp.data b.data) ∧
      (∀ e, e ∈ (pruneHandler tsP appId appId (some b) st).2.1.logs
          ↔ (e ∈ st.logs ∧ lexLt e.timestamp.data b.data = false)) ∧
      (pruneHandler tsP appId appId (some b) st).1
          = .ok (st.logs.filter (fun e => lexLt e.timestamp.data b.data)).length) := by
  refine ⟨by simp [pruneHandler], by simp [pruneHandler], ?_, ?_⟩
  · intro b hb hp
    simp [pruneHandler, doPrune, hb, hp]
  · intro b hb hp
    refine ⟨by simp [pruneHandler, doPrune, hb, hp], ?_,
      by simp [pruneHandler, doPrune, hb, hp]⟩
    intro e
    simp [pruneHandler, doPrune, hb, hp, List.mem_filter]

/-- Witness for C7: pruning the ten example entries of tenant A before day
5 deletes the four older entries, with the hypotheses discharged at a
concrete parsable bound. -/
theorem prune_requires_before_witness :
    ("2026-01-05" : String) ≠ "" ∧
    (fun _ : String => true) "2026-01-05" = true ∧
    (pruneHandler (fun _ => true) "A" "A" (some "2026-01-05")
        ⟨exampleEntriesA, []⟩).1
      = .ok (exampleEntriesA.filter
          (fun e => lexLt e.timestamp.data "2026-01-05".data)).length :=
  ⟨by decide, rfl,
    ((prune_requires_before (fun _ => true) "A" ⟨exampleEntriesA, []⟩).2.2.2
      "2026-01-05" (by decide) rfl).2.2⟩

/-- C3: The aggregate result is the tagged concatenation of the per-tenant
results, sorted by timestamp descending under code-unit (lexicographic)
string comparison, truncated to the global limit: the response equals the
first L entries of the sort, the sort is a permutation of the merged list
and is sorted under tsGe, the truncation keeps min(L, total) entries, every
kept entry is at least as new as every dropped one, and in the concrete
two-tenant example (A with 10 entries, B with 5, limit 12) the response is
exactly the 12 newest of the 15 merged entries. -/
theorem aggregate_merge_sort_truncate (appIds : List String)
    (params : QueryFilters) (fetch : String → QueryFilters → TenantResp)
    (L : Int) (hne : appIds ≠ []) (hL : globalLimitOf params = .int L)
    (hL0 : 0 ≤ L) :
    (aggregateLogs (.listed appIds) params fetch).response
      = .ok ((sortByTimestampDesc (mergedOf appIds params fetch)).take L.toNat) ∧
    (sortByTimestampDesc (mergedOf appIds params fetch)).Perm
      (mergedOf appIds params fetch) ∧
    List.Sorted tsGe (sortByTimestampDesc (mergedOf appIds params fetch)) ∧
    ((sortByTimestampDesc (mergedOf appIds params fetch)).take L.toNat).length
      = min L.toNat (mergedOf appIds params fetch).length ∧
    (∀ x ∈ (sortByTimestampDesc (mergedOf appIds params fetch)).take L.toNat,
      ∀ y ∈ (sortByTimestampDesc (mergedOf appIds params fetch)).drop L.toNat,
        tsGe x y) ∧
    aggregateLogs (.listed ["A", "B"]) { limit := some "12" } exampleFetch
      = ⟨.ok exampleExpected,
          [("A", perAppQuery { limit := some "12" } (.int 10)),
            ("B", perAppQuery { limit := some "12" } (.int 10))]⟩ := by
  have hlen : appIds.isEmpty = false := by
    cases appIds with
    | nil => exact absurd rfl hne
    | cons x xs => rfl
  have hperm : (sortByTimestampDesc (mergedOf appIds params fetch)).Perm
      (mergedOf appIds params fetch) :=
    List.perm_insertionSort tsGe _
  have hsorted : List.Sorted tsGe (sortByTimestampDesc (mergedOf appIds params fetch)) :=
    List.sorted_insertionSort tsGe _
  refine ⟨?_, hperm, hsorted, ?_, ?_, ?_⟩
  · simp [aggregateLogs, hlen, hL, mergedOf, jsSlice, hL0]
  · rw [List.length_take, hperm.length_eq]
  · intro x hx y hy
    exact hsorted.rel_of_mem_take_of_mem_drop hx hy
  · decide

/-- Witness for C3 at the two-tenant example with limit 12, discharging the
hypotheses at the concrete inputs. -/
theorem aggregate_merge_sort_truncate_witness :
    (["A", "B"] : List String) ≠ [] ∧
    globalLimitOf { limit := some "12" } = JSNum.int 12 ∧
    (0 : Int) ≤ 12 ∧
    (aggregateLogs (.listed ["A", "B"]) { limit := some "12" } exampleFetch).response
      = .ok ((sortByTimestampDesc
          (mergedOf ["A", "B"] { limit := some "12" } exampleFetch)).take
            (12 : Int).toNat) :=
  ⟨by decide, by decide, by decide,
    (aggregate_merge_sort_truncate ["A", "B"] { limit := some "12" } exampleFetch 12
      (by decide) (by decide) (by decide)).1⟩
